import Mathlib

/-!
Verification development for the NestDoorbellConsumer repository.

The repository contains two Go executables:
* a clip server (`/list` endpoint, calendar-range decomposition of a
  `[from, to)` unix-time interval into year/month/day/hour directory
  prefixes, directory walking), and
* an event consumer (pub/sub callback, device-event dispatch, clip
  download with filename-collision probing).

This file gives a shallow embedding of the relevant functions.  Instants
are modelled as integer nanoseconds since the Unix epoch in a fixed-offset
location (all `time.Time` values in the program live in the single `Local`
location, and the algorithms use only the civil-calendar field accessors
`Year`/`Month`/`Day`/`Hour`, `Add`, `AddDate` and `time.Date`, all of which
a fixed-offset location interprets over the proleptic Gregorian calendar
exactly as modelled here).
-/

namespace NestDoorbell

/-! ## Go `time` model: nanoseconds since the Unix epoch, Gregorian calendar -/

def nsPerSec : Int := 1000000000

def nsPerMin : Int := 60 * nsPerSec

def nsPerHour : Int := 60 * nsPerMin

def nsPerDay : Int := 24 * nsPerHour

/-- Civil date (proleptic Gregorian) of a count of days since 1970-01-01,
as `(year, month, day)` with `month ∈ [1,12]`, `day ∈ [1,31]`.
Standard era-based conversion, matching Go's `time.Time.Date` field
computation. -/
def civilFromDays (z : Int) : Int × Int × Int :=
  let z' := z + 719468
  let era := Int.fdiv z' 146097
  let doe := z' - era * 146097
  let yoe := Int.fdiv (doe - Int.fdiv doe 1460 + Int.fdiv doe 36524 - Int.fdiv doe 146096) 365
  let y := yoe + era * 400
  let doy := doe - (365 * yoe + Int.fdiv yoe 4 - Int.fdiv yoe 100)
  let mp := Int.fdiv (5 * doy + 2) 153
  let d := doy - Int.fdiv (153 * mp + 2) 5 + 1
  let m := if mp < 10 then mp + 3 else mp - 9
  (if m ≤ 2 then y + 1 else y, m, d)

/-- Days since 1970-01-01 of the civil date `(y, m, d)`; `m` must be in
`[1,12]`, while `d` may be out of range (Go's `time.Date` likewise lets an
out-of-range day roll over into adjacent months). -/
def daysFromCivil (y m d : Int) : Int :=
  let y' := if m ≤ 2 then y - 1 else y
  let era := Int.fdiv y' 400
  let yoe := y' - era * 400
  let mp := if m > 2 then m - 3 else m + 9
  let doy := Int.fdiv (153 * mp + 2) 5 + d - 1
  let doe := yoe * 365 + Int.fdiv yoe 4 - Int.fdiv yoe 100 + doy
  era * 146097 + doe - 719468

/-- Go `time.Date(y, m, d, 0, 0, 0, 0, loc)`: normalizes the month into
`[1,12]` with year carry (as Go does), then converts through days since the
epoch (which also normalizes an out-of-range day). Result in nanoseconds. -/
def mkDate (y m d : Int) : Int :=
  let m' := m - 1
  let yn := y + Int.fdiv m' 12
  let mn := Int.emod m' 12 + 1
  daysFromCivil yn mn d * nsPerDay

/-- Days-since-epoch component of an instant (floor). -/
def timeDays (t : Int) : Int := Int.fdiv t nsPerDay

/-- Go `t.Year()`. -/
def timeYear (t : Int) : Int := (civilFromDays (timeDays t)).1

/-- Go `t.Month()` as a number in `[1,12]` (Go's `time.Month` is an
integer type with January = 1; the source compares and adds months
numerically). -/
def timeMonth (t : Int) : Int := (civilFromDays (timeDays t)).2.1

/-- Go `t.Day()`. -/
def timeDay (t : Int) : Int := (civilFromDays (timeDays t)).2.2

/-- Go `t.Hour()`. -/
def timeHour (t : Int) : Int := Int.fdiv (Int.emod t nsPerDay) nsPerHour

/-- Go `t.AddDate(years, months, days)`: re-derives the civil fields,
offsets them, and renormalizes through `time.Date`, keeping the
time-of-day (including nanoseconds) unchanged. -/
def addDate (t years months days : Int) : Int :=
  let dayCount := timeDays t
  let tod := t - dayCount * nsPerDay
  let c := civilFromDays dayCount
  mkDate (c.1 + years) (c.2.1 + months) (c.2.2 + days) + tod

/-- Go `fmt.Sprintf` with a `%0N d`-style verb at width `w` for the
values appearing in this program (zero-padded decimal). -/
def padInt (w : Nat) (n : Int) : String :=
  if n < 0 then
    let s := toString (-n)
    "-" ++ String.mk (List.replicate ((w - 1) - s.length) '0') ++ s
  else
    let s := toString n
    String.mk (List.replicate (w - s.length) '0') ++ s

/-! ## Calendar-range decomposer (`listTargetDirectories` in the server) -/

/-- Year-branch loop of `listTargetDirectories`:
`for year := fromTs.Year(); year < toTs.Year(); year++` emitting
`strconv.Itoa(year)` and advancing `fromTs = fromTs.AddDate(1, 0, 0)`.
The first argument is the iteration count `(toTs.Year() - year₀).toNat`;
returns the emitted entries and the final `fromTs`. -/
def yearLoop : Nat → Int → Int → List String × Int
  | 0, _, f => ([], f)
  | n + 1, year, f =>
    let r := yearLoop n (year + 1) (addDate f 1 0 0)
    (toString year :: r.1, r.2)

/-- Month-branch loop: emits `Sprintf("%04d", fromTs.Year()) / Sprintf("%02d", month)`
and advances `fromTs = fromTs.AddDate(0, 1, 0)`. -/
def monthLoop : Nat → Int → Int → List String × Int
  | 0, _, f => ([], f)
  | n + 1, month, f =>
    let entry := padInt 4 (timeYear f) ++ "/" ++ padInt 2 month
    let r := monthLoop n (month + 1) (addDate f 0 1 0)
    (entry :: r.1, r.2)

/-- Day-branch loop: emits
`Sprintf("%04d", fromTs.Year()) / Sprintf("%02d", fromTs.Month()) / Sprintf("%02d", day)`
and advances `fromTs = fromTs.AddDate(0, 0, 1)`. -/
def dayLoop : Nat → Int → Int → List String × Int
  | 0, _, f => ([], f)
  | n + 1, day, f =>
    let entry := padInt 4 (timeYear f) ++ "/" ++ padInt 2 (timeMonth f) ++ "/" ++ padInt 2 day
    let r := dayLoop n (day + 1) (addDate f 0 0 1)
    (entry :: r.1, r.2)

/-- Hour-branch loop: emits
`Year()/Month()/Day()/Sprintf("%02d", hour)` from the advancing `fromTs`
and the loop counter, advancing `fromTs = fromTs.Add(time.Hour)`. -/
def hourLoop : Nat → Int → Int → List String × Int
  | 0, _, f => ([], f)
  | n + 1, hour, f =>
    let entry := padInt 4 (timeYear f) ++ "/" ++ padInt 2 (timeMonth f) ++ "/"
      ++ padInt 2 (timeDay f) ++ "/" ++ padInt 2 hour
    let r := hourLoop n (hour + 1) (f + nsPerHour)
    (entry :: r.1, r.2)

/-- The recursive calendar-range decomposer of the clip server
(`listTargetDirectories` in its `main.go`), transcribed branch by branch.
Go's `log.Panic` calls are modelled as `Except.error` with the source's
exact message.  The extra `Nat` argument is structural-recursion fuel; the
Go recursion always terminates within four nested calls (each recursive
call is on a range ending exactly at the boundary of the unit being
peeled, so the callee skips every branch at or above that granularity),
and running out of fuel yields a distinguished error that no theorem in
this file ever exhibits. -/
def listTargetDirectoriesFuel : Nat → Int → Int → Except String (List String)
  | 0, _, _ => .error "model fuel exhausted"
  | fuel + 1, fromTs0, toTs => do
    let s1 ←
      if timeYear fromTs0 = timeYear (toTs - 1) then
        pure (([] : List String), fromTs0)
      else do
        let nxt := mkDate (timeYear fromTs0 + 1) 1 1
        let sub ← listTargetDirectoriesFuel fuel fromTs0 nxt
        let l := yearLoop (timeYear toTs - timeYear nxt).toNat (timeYear nxt) nxt
        pure (sub ++ l.1, l.2)
    let s2 ←
      if timeMonth s1.2 = timeMonth (toTs - 1) then
        pure (([] : List String), s1.2)
      else do
        if timeMonth s1.2 = 12 then
          throw "fromTs.Month() must not be Descember"
        if timeMonth s1.2 > timeMonth toTs then
          throw "fromTs.Month() must not be larger than toTs"
        let nxt := mkDate (timeYear s1.2) (timeMonth s1.2 + 1) 1
        let sub ← listTargetDirectoriesFuel fuel s1.2 nxt
        let l := monthLoop (timeMonth toTs - timeMonth nxt).toNat (timeMonth nxt) nxt
        pure (sub ++ l.1, l.2)
    let s3 ←
      if timeDay s2.2 = timeDay (toTs - 1) then
        pure (([] : List String), s2.2)
      else do
        let nxt := mkDate (timeYear s2.2) (timeMonth s2.2) (timeDay s2.2 + 1)
        let sub ← listTargetDirectoriesFuel fuel s2.2 nxt
        let l := dayLoop (timeDay toTs - timeDay nxt).toNat (timeDay nxt) nxt
        pure (sub ++ l.1, l.2)
    let s4 :=
      if timeHour s3.2 = timeHour (toTs - 1) then ([] : List String)
      else (hourLoop (timeHour toTs - timeHour s3.2).toNat (timeHour s3.2) s3.2).1
    pure (s1.1 ++ s2.1 ++ s3.1 ++ s4)

/-- Go `listTargetDirectories(fromTs, toTs)`: four units of fuel cover the
maximal recursion depth (top call, year flush, month flush, day flush). -/
def listTargetDirectories (fromTs toTs : Int) : Except String (List String) :=
  listTargetDirectoriesFuel 4 fromTs toTs

/-- Convenience constructor for instants used in concrete statements:
`time.Date(y, m, d, h, 0, 0, 0, loc)`. -/
def mkDateHour (y m d h : Int) : Int :=
  mkDate y m d + h * nsPerHour

/-! ## Go string helpers used by both executables -/

/-- Does the pattern match at the head of the text?  (Character-level
prefix test used by the `strings.ReplaceAll` and substring models.) -/
def matchesAt : List Char → List Char → Bool
  | [], _ => true
  | _ :: _, [] => false
  | p :: ps, c :: cs => p = c && matchesAt ps cs

/-- Does the needle occur as a contiguous substring of the haystack? -/
def hasSub (needle : List Char) : List Char → Bool
  | [] => matchesAt needle []
  | c :: rest => matchesAt needle (c :: rest) || hasSub needle (rest)

/-- String-level substring test. -/
def strContains (hay needle : String) : Bool :=
  hasSub needle.data hay.data

/-- Go `strings.Join(elems, sep)`. -/
def stringsJoin : List String → String → String
  | [], _ => ""
  | [a], _ => a
  | a :: b :: rest, sep => a ++ sep ++ stringsJoin (b :: rest) sep

/-- Replacement worker for `strings.ReplaceAll`, on character lists; the
`Nat` argument is fuel bounded by the text length (each step consumes at
least one character of the text, so `text.length` fuel is exact). -/
def replaceAllAux : Nat → List Char → List Char → List Char → List Char
  | 0, s, _, _ => s
  | fuel + 1, s, old, new =>
    match s with
    | [] => []
    | c :: rest =>
      if old ≠ [] ∧ matchesAt old s then
        new ++ replaceAllAux fuel (s.drop old.length) old new
      else
        c :: replaceAllAux fuel rest old new

/-- Go `strings.ReplaceAll(s, old, new)` for a non-empty `old` (the one
call site uses the literal pattern `"{eventSessionId}"`; Go's special
behaviour for an empty pattern is not modelled). -/
def goReplaceAll (s old new : String) : String :=
  String.mk (replaceAllAux s.data.length s.data old.data new.data)

/-- Go `filepath.Join(a, b)` restricted to the already-clean components
this program builds (Go additionally runs `Clean`, which is the identity
on such inputs). -/
def filepathJoin (a b : String) : String :=
  if a = "" then b else if b = "" then a else a ++ "/" ++ b

/-- Leftover of a character list after removing a required leading run;
`none` when the run is not a prefix. -/
def dropPre : List Char → List Char → Option (List Char)
  | [], cs => some cs
  | _ :: _, [] => none
  | p :: ps, c :: cs => if p = c then dropPre ps cs else none

/-- Go `filepath.Rel(base, target)` for the case arising in the server
(`target` lexically below `base`): strips `base ++ "/"`; `none` models the
error return for unrelated paths. -/
def relTo (base target : String) : Option String :=
  (dropPre (base ++ "/").data target.data).map String.mk

/-- Go `strconv.Itoa` composed with digit accumulation: value of a
non-empty run of decimal digits, `none` on any non-digit. -/
def digitsVal : List Char → Option Nat
  | [] => none
  | cs => go cs 0
where
  go : List Char → Nat → Option Nat
    | [], acc => some acc
    | c :: rest, acc =>
      if '0' ≤ c ∧ c ≤ '9' then go rest (acc * 10 + (c.toNat - '0'.toNat))
      else none

/-- Go `strconv.ParseInt(s, 10, 64)`: optional sign, at least one digit,
nothing else, and the value must fit in a signed 64-bit integer.  Errors
carry the `NumError` message text Go would produce. -/
def goParseInt64 (s : String) : Except String Int :=
  let syntaxErr : Except String Int :=
    .error ("strconv.ParseInt: parsing \"" ++ s ++ "\": invalid syntax")
  let rangeErr : Except String Int :=
    .error ("strconv.ParseInt: parsing \"" ++ s ++ "\": value out of range")
  match s.data with
  | [] => syntaxErr
  | c :: rest =>
    let p : Bool × List Char :=
      if c = '-' then (true, rest)
      else if c = '+' then (false, rest)
      else (false, c :: rest)
    match digitsVal p.2 with
    | none => syntaxErr
    | some n =>
      let v : Int := if p.1 then -(n : Int) else (n : Int)
      if -(2 ^ 63) ≤ v ∧ v < 2 ^ 63 then .ok v else rangeErr

/-! ## Listing endpoint of the clip server -/

/-- Go `parseUnixTimeOrDefault(unixTsStr, defaultTime)`: the empty string
yields the default instant; otherwise the string is parsed as unix
seconds (`time.Unix(ts, 0)`, hence `ts * nsPerSec` in the model).  All
instants are already in the single `Local` location, so `.Local()` is the
identity. -/
def parseUnixTimeOrDefault (unixTsStr : String) (defaultTime : Int) : Except String Int :=
  if unixTsStr.length = 0 then .ok defaultTime
  else
    match goParseInt64 unixTsStr with
    | .error e => .error e
    | .ok ts => .ok (ts * nsPerSec)

/-- Query validation of the `/list` handler (its first half): parse
`from` with default `now - 24h`, parse `to` with default `from + 24h`,
reject a non-increasing range.  Every `.error` is answered with HTTP 400
carrying the message. -/
def listValidateRange (fromQ toQ : String) (now : Int) : Except String (Int × Int) :=
  match parseUnixTimeOrDefault fromQ (now - 24 * nsPerHour) with
  | .error e => .error e
  | .ok fromTs =>
    match parseUnixTimeOrDefault toQ (fromTs + 24 * nsPerHour) with
    | .error e => .error e
    | .ok toTs =>
      if fromTs < toTs then .ok (fromTs, toTs)
      else .error "from should be less than to"

/-- An invocation of the `filepath.WalkDir` callback: either a real
directory entry (`d ≠ nil`, with its regular-file flag) or an error
invocation (`d == nil`, as for a root whose stat failed). -/
inductive WalkEvent where
  | entry (path : String) (regular : Bool)
  | failure (path : String)
deriving DecidableEq, Repr

/-- Did the walk of a directory report any filesystem error? -/
def walkSawError (events : List WalkEvent) : Bool :=
  events.any fun e => match e with | .failure _ => true | _ => false

/-- The `/list` walk callback applied to every event of one directory
walk: error invocations are dropped (`if d == nil { return nil }`),
non-regular entries are dropped, and regular files contribute their path
relative to the root directory (skipped if `filepath.Rel` errs). -/
def collectWalk (rootDir : String) (events : List WalkEvent) : List String :=
  events.filterMap fun e =>
    match e with
    | .entry p true => relTo rootDir p
    | .entry _ false => none
    | .failure _ => none

/-- The `/list` handler.  `fs` abstracts the filesystem: for each walk
root it yields the sequence of callback invocations `filepath.WalkDir`
would produce there.  The result is `some (status, body)`; the body of a
`200` is the collected file list (which `json.Marshal` then renders — it
cannot fail on a `[]string`, so the handler's 500 branch is dead), and
the body of a `400` is the error text.  `none` models the absence of any
response when `listTargetDirectories` panics out of the handler. -/
def handleList (fromQ toQ : String) (now : Int) (rootDir : String)
    (fs : String → List WalkEvent) : Option (Nat × List String) :=
  match listValidateRange fromQ toQ now with
  | .error e => some (400, [e])
  | .ok r =>
    match listTargetDirectories r.1 r.2 with
    | .error _ => none
    | .ok dirs =>
      some (200, (dirs.map fun d => collectWalk rootDir (fs (filepathJoin rootDir d))).flatten)

/-! ## Event consumer: data model

The consumer's `DeviceEvent` and payload structs are transcribed from its
`main.go`.  A `json.RawMessage` payload is abstracted by the outcomes of
the only two `json.Unmarshal` calls ever applied to it: decoding into the
common chime/motion/person shape (`eventSessionId`/`eventId` — the three
structs are field-for-field identical, so one decode result covers all
three) and decoding into the clip-preview shape. -/

deriving instance DecidableEq for Except

structure SessionEvent where
  eventSessionId : String
  eventId : String
deriving DecidableEq, Repr

structure ClipPreviewEvent where
  eventSessionId : String
  previewUrl : String
deriving DecidableEq, Repr

/-- Abstraction of one `json.RawMessage` value: what `json.Unmarshal`
yields on it for each of the two target shapes the consumer uses. -/
structure RawMessage where
  asSession : Except String SessionEvent
  asClip : Except String ClipPreviewEvent
deriving DecidableEq, Repr

structure RelationUpdate where
  type' : String
  subject : String
  object : String
deriving DecidableEq, Repr

structure ResourceUpdate where
  name : String
  traits : List (String × RawMessage)
  events : List (String × RawMessage)
deriving DecidableEq, Repr

structure DeviceEvent where
  eventId : String
  timestamp : String
  relationUpdate : Option RelationUpdate
  resourceUpdate : Option ResourceUpdate
  resourceGroup : List String
  eventThreadId : Option String
  eventThreadState : Option String
  userId : String
deriving DecidableEq, Repr

/-- Go `(*DeviceEvent).format()`. -/
def formatDeviceEvent (e : DeviceEvent) : String :=
  "DeviceEvent\n\t* UserId: " ++ e.userId ++ "\n\t* EventId: " ++ e.eventId
    ++ "\n\t* Timestamp: " ++ e.timestamp

def doorbellChimeKey : String := "sdm.devices.events.DoorbellChime.Chime"

def cameraMotionKey : String := "sdm.devices.events.CameraMotion.Motion"

def cameraPersonKey : String := "sdm.devices.events.CameraPerson.Person"

def cameraClipPreviewKey : String := "sdm.devices.events.CameraClipPreview.ClipPreview"

/-- Observable actions of one `Process` invocation: which handler ran
(the per-kind log line) and whether the clip downloader was invoked. -/
inductive PAction where
  | chimeHandled (e : SessionEvent)
  | motionHandled (e : SessionEvent)
  | personHandled (e : SessionEvent)
  | relationHandled
  | downloadRequested (c : ClipPreviewEvent)
deriving DecidableEq, Repr

/-- Message of the `unsupported resource update event` error, built as in
the source: `fmt.Errorf` over the user id and the `strings.Join`ed key
lists of the `Events` and `Traits` maps. -/
def unsupportedMsg (userId : String) (eventKeys traitKeys : List String) : String :=
  "unsupported resource update event:\n\t* user id(" ++ userId ++ ")\n\t* events("
    ++ stringsJoin eventKeys "," ++ ")\n\t* traits(" ++ stringsJoin traitKeys "," ++ ")"

/-- Co-present clip-preview payload of a resource update: decoded
opportunistically; a decode failure is treated as absence (the source
resets `clipPreviewEvent = nil` on unmarshal error). -/
def clipPreviewOf (events : List (String × RawMessage)) : Option ClipPreviewEvent :=
  match List.lookup cameraClipPreviewKey events with
  | some raw => match raw.asClip with
    | .ok c => some c
    | .error _ => none
  | none => none

/-- Shared tail of the three per-kind handlers: forward a present clip
preview to `downloadAndSaveCameraClipPreview`, whose I/O outcome the
parameter `dl` abstracts; a failed download propagates as the handler's
error. -/
def processClipForward (dl : ClipPreviewEvent → Except String Unit)
    (clip : Option ClipPreviewEvent) : Except String Unit × List PAction :=
  match clip with
  | none => (.ok (), [])
  | some c => (dl c, [.downloadRequested c])

/-- Go `processChimeEvent`. -/
def processChimeEvent (dl : ClipPreviewEvent → Except String Unit)
    (chime : SessionEvent) (clip : Option ClipPreviewEvent) :
    Except String Unit × List PAction :=
  let t := processClipForward dl clip
  (t.1, .chimeHandled chime :: t.2)

/-- Go `processMotionEvent`. -/
def processMotionEvent (dl : ClipPreviewEvent → Except String Unit)
    (motion : SessionEvent) (clip : Option ClipPreviewEvent) :
    Except String Unit × List PAction :=
  let t := processClipForward dl clip
  (t.1, .motionHandled motion :: t.2)

/-- Go `processPersonEvent`. -/
def processPersonEvent (dl : ClipPreviewEvent → Except String Unit)
    (person : SessionEvent) (clip : Option ClipPreviewEvent) :
    Except String Unit × List PAction :=
  let t := processClipForward dl clip
  (t.1, .personHandled person :: t.2)

/-- Go `processResourceUpdateEvent`: probes the `Events` map for the
three primary keys in source order (chime, then motion, then person);
a decode failure of the matched primary payload is returned as the error;
no recognized key yields the descriptive `unsupportedMsg` error and
invokes nothing. -/
def processResourceUpdateEvent (dl : ClipPreviewEvent → Except String Unit)
    (event : DeviceEvent) (ru : ResourceUpdate) : Except String Unit × List PAction :=
  match List.lookup doorbellChimeKey ru.events with
  | some raw =>
    (match raw.asSession with
     | .error e => (.error e, [])
     | .ok chime => processChimeEvent dl chime (clipPreviewOf ru.events))
  | none =>
    match List.lookup cameraMotionKey ru.events with
    | some raw =>
      (match raw.asSession with
       | .error e => (.error e, [])
       | .ok motion => processMotionEvent dl motion (clipPreviewOf ru.events))
    | none =>
      match List.lookup cameraPersonKey ru.events with
      | some raw =>
        (match raw.asSession with
         | .error e => (.error e, [])
         | .ok person => processPersonEvent dl person (clipPreviewOf ru.events))
      | none =>
        (.error (unsupportedMsg event.userId (ru.events.map Prod.fst) (ru.traits.map Prod.fst)),
         [])

/-- Go `(*NestDoorbellEventProcessor).Process`: a present `ResourceUpdate`
takes priority over a present `RelationUpdate`; a relation update is a
logged no-op; neither present is an error. -/
def Process (dl : ClipPreviewEvent → Except String Unit) (event : DeviceEvent) :
    Except String Unit × List PAction :=
  match event.resourceUpdate with
  | some ru => processResourceUpdateEvent dl event ru
  | none =>
    match event.relationUpdate with
    | some _ => (.ok (), [.relationHandled])
    | none => (.error ("Unsupported event: " ++ formatDeviceEvent event), [])

/-- Handler-invocation markers of a trace (exactly one is expected per
successfully dispatched event). -/
def primaryMarkers (tr : List PAction) : List PAction :=
  tr.filter fun a =>
    match a with
    | .chimeHandled _ => true
    | .motionHandled _ => true
    | .personHandled _ => true
    | .relationHandled => true
    | .downloadRequested _ => false

/-! ## Clip downloader: output filename and collision probing -/

/-- Candidate output filename for probe index `i`, from
`downloadAndSaveCameraClipPreview`:
`filepath.Join(outputDir, strings.ReplaceAll(fileNameFormat, "{eventSessionId}", sessionId + "_" + strconv.Itoa(i)) + extension)`
where `resolvedFormat` is the configured format already resolved through
`time.Now().Format` (done once, before the loop). -/
def mkClipFileName (outputDir resolvedFormat sessionId ext : String) (i : Nat) : String :=
  filepathJoin outputDir
    (goReplaceAll resolvedFormat "{eventSessionId}" (sessionId ++ "_" ++ toString i) ++ ext)

/-- Collision-probe loop: try indices `i, i+1, …` until a name does not
exist.  The Go loop is unbounded; the fuel argument models it exactly on
every run that terminates, and `none` models divergence. -/
def probeLoop (present : String → Bool) (mk : Nat → String) : Nat → Nat → Option String
  | 0, _ => none
  | fuel + 1, i =>
    let n := mk i
    if present n then probeLoop present mk fuel (i + 1) else some n

/-- Filename chosen by the downloader against a filesystem holding the
set `fs` of existing names.  `fs.length + 1` probes always suffice when
some candidate is free among indices `0 … fs.length`, which holds
whenever the resolved format mentions `{eventSessionId}` (candidates are
then pairwise distinct); `none` reproduces Go's infinite loop when every
candidate collides. -/
def chooseClipFileName (fs : List String)
    (outputDir resolvedFormat sessionId ext : String) : Option String :=
  probeLoop (fun n => fs.contains n)
    (mkClipFileName outputDir resolvedFormat sessionId ext) (fs.length + 1) 0

/-! ## Subscription callback of the consumer -/

/-- Observable actions of one subscription-callback invocation. -/
inductive CAction where
  | ranProcess (result : Except String Unit) (acts : List PAction)
  | loggedUnmarshalFailure
  | loggedProcessFailure
  | ackMsg
deriving DecidableEq, Repr

/-- The `sub.Receive` callback of the consumer's `main`: `defer m.Ack()`
registers the acknowledgement first and executes it when the callback
returns — hence it is the last action of every trace.  `decoded`
abstracts `json.Unmarshal(m.Data, &event)`; an unmarshal failure is
logged and the callback returns (still acknowledging); a processing
failure likewise. -/
def receiveCallback (dl : ClipPreviewEvent → Except String Unit)
    (decoded : Except String DeviceEvent) : List CAction :=
  (match decoded with
   | .error _ => [.loggedUnmarshalFailure]
   | .ok ev =>
     match Process dl ev with
     | (.error e, acts) => [.ranProcess (.error e) acts, .loggedProcessFailure]
     | (.ok u, acts) => [.ranProcess (.ok u) acts]) ++ [.ackMsg]

/-- Is some action a processing-completion record? -/
def isProcessAct (a : CAction) : Bool :=
  match a with
  | .ranProcess _ _ => true
  | _ => false

/-- Does the acknowledgement strictly precede the completion of message
processing in a callback trace?  (`true` also when no processing happened
at all, the weakest reading favourable to the claim.) -/
def ackPrecedesProcessing (tr : List CAction) : Bool :=
  match tr.findIdx? (fun a => a = CAction.ackMsg), tr.findIdx? isProcessAct with
  | some ia, some ip => ia < ip
  | some _, none => true
  | none, _ => false

/-! ## Helper lemmas -/

theorem matchesAt_self (p t : List Char) : matchesAt p (p ++ t) = true := by
  induction p with
  | nil => simp [matchesAt]
  | cons c ps ih => simp [matchesAt, ih]

theorem hasSub_parts (n pre suf : List Char) : hasSub n (pre ++ (n ++ suf)) = true := by
  induction pre with
  | nil =>
    cases n with
    | nil => cases suf <;> simp [hasSub, matchesAt]
    | cons a ns =>
      simp only [List.nil_append, List.cons_append, hasSub, Bool.or_eq_true]
      exact Or.inl (by simpa using matchesAt_self (a :: ns) suf)
  | cons c pre ih => simp [hasSub, ih]

theorem hasSub_context (n pre suf l : List Char) (h : l = pre ++ (n ++ suf)) :
    hasSub n l = true := by
  subst h; exact hasSub_parts n pre suf

theorem stringsJoin_mem : ∀ (keys : List String) (sep k : String), k ∈ keys →
    ∃ pre suf, (stringsJoin keys sep).data = pre ++ (k.data ++ suf)
  | [], _, k, h => absurd h (List.not_mem_nil k)
  | [a], _, k, h => by
    obtain rfl : k = a := List.mem_singleton.mp h
    exact ⟨[], [], by simp [stringsJoin]⟩
  | a :: b :: rest, sep, k, h => by
    rcases List.mem_cons.mp h with rfl | h2
    · exact ⟨[], sep.data ++ (stringsJoin (b :: rest) sep).data,
        by simp [stringsJoin, String.data_append]⟩
    · obtain ⟨pre, suf, hps⟩ := stringsJoin_mem (b :: rest) sep k h2
      exact ⟨a.data ++ sep.data ++ pre, suf,
        by simp [stringsJoin, String.data_append, hps]⟩

theorem strContains_unsupportedMsg (u : String) (eventKeys traitKeys : List String)
    (k : String) (h : k ∈ eventKeys ∨ k ∈ traitKeys) :
    strContains (unsupportedMsg u eventKeys traitKeys) k = true := by
  unfold strContains unsupportedMsg
  rcases h with h | h
  · obtain ⟨pre, suf, hj⟩ := stringsJoin_mem eventKeys "," k h
    exact hasSub_context k.data
      (("unsupported resource update event:\n\t* user id(").data ++ u.data
        ++ (")\n\t* events(").data ++ pre)
      (suf ++ (")\n\t* traits(").data ++ (stringsJoin traitKeys ",").data ++ (")").data)
      _ (by simp [String.data_append, hj])
  · obtain ⟨pre, suf, hj⟩ := stringsJoin_mem traitKeys "," k h
    exact hasSub_context k.data
      (("unsupported resource update event:\n\t* user id(").data ++ u.data
        ++ (")\n\t* events(").data ++ (stringsJoin eventKeys ",").data
        ++ (")\n\t* traits(").data ++ pre)
      (suf ++ (")").data)
      _ (by simp [String.data_append, hj])

theorem probeLoop_finds (present : String → Bool) (mk : Nat → String) :
    ∀ (n i fuel : Nat), n < fuel →
      (∀ j, j < n → present (mk (i + j)) = true) →
      present (mk (i + n)) = false →
      probeLoop present mk fuel i = some (mk (i + n)) := by
  intro n
  induction n with
  | zero =>
    intro i fuel hf _ hfree
    cases fuel with
    | zero => omega
    | succ f =>
      have hf' : present (mk i) = false := by simpa using hfree
      simp [probeLoop, hf']
  | succ n ih =>
    intro i fuel hf hall hfree
    cases fuel with
    | zero => omega
    | succ f =>
      have h0 : present (mk i) = true := by simpa using hall 0 (by omega)
      have hrec := ih (i + 1) f (by omega)
        (fun j hj => by
          have := hall (j + 1) (by omega)
          simpa [Nat.add_assoc, Nat.add_comm, Nat.add_left_comm] using this)
        (by
          have : i + 1 + n = i + (n + 1) := by omega
          rw [this]; exact hfree)
      have : i + 1 + n = i + (n + 1) := by omega
      rw [this] at hrec
      simp [probeLoop, h0, hrec]

theorem relationHandled_not_in_resource_trace
    (dl : ClipPreviewEvent → Except String Unit) (ev : DeviceEvent) (ru : ResourceUpdate) :
    PAction.relationHandled ∉ (processResourceUpdateEvent dl ev ru).2 := by
  unfold processResourceUpdateEvent
  split
  · split
    · simp
    · cases hc : clipPreviewOf ru.events <;>
        simp [processChimeEvent, processClipForward, hc]
  · split
    · split
      · simp
      · cases hc : clipPreviewOf ru.events <;>
          simp [processMotionEvent, processClipForward, hc]
    · split
      · split
        · simp
        · cases hc : clipPreviewOf ru.events <;>
            simp [processPersonEvent, processClipForward, hc]
      · simp

theorem primaryMarkers_chime (dl : ClipPreviewEvent → Except String Unit)
    (c : SessionEvent) (clip : Option ClipPreviewEvent) :
    primaryMarkers (processChimeEvent dl c clip).2 = [PAction.chimeHandled c] := by
  cases clip <;> simp [processChimeEvent, processClipForward, primaryMarkers]

theorem primaryMarkers_motion (dl : ClipPreviewEvent → Except String Unit)
    (m : SessionEvent) (clip : Option ClipPreviewEvent) :
    primaryMarkers (processMotionEvent dl m clip).2 = [PAction.motionHandled m] := by
  cases clip <;> simp [processMotionEvent, processClipForward, primaryMarkers]

theorem primaryMarkers_person (dl : ClipPreviewEvent → Except String Unit)
    (p : SessionEvent) (clip : Option ClipPreviewEvent) :
    primaryMarkers (processPersonEvent dl p clip).2 = [PAction.personHandled p] := by
  cases clip <;> simp [processPersonEvent, processClipForward, primaryMarkers]

/-! ## Claim theorems -/

/-- C1 (code bug): the coverage part of the claim fails on the code.  For
the non-empty single-hour range `[2023-05-10 10:00, 2023-05-10 11:00)`
the decomposer returns no prefix at all, so the hour-bucket
`2023/05/10/10` — which the range consists of — lies under no returned
prefix.  (The `-1ns` adjustment in the branch conditions makes every
range that fits one hour-bucket skip all four branches, and the loop
bounds read the raw `toTs` fields, so flush recursions whose `toTs` sits
exactly on a unit boundary emit nothing.) -/
theorem c1_single_hour_range_uncovered :
    listTargetDirectories (mkDateHour 2023 5 10 10) (mkDateHour 2023 5 10 11) = .ok []
    ∧ mkDateHour 2023 5 10 10 < mkDateHour 2023 5 10 11 := by
  constructor
  · decide
  · decide

/-- C2 (code bug): for `from = 2023-01-01T00:00:00` and
`to = 2024-01-01T00:00:00` the code returns `[]`, not `["2023"]`: both
`fromTs` and `toTs - 1ns` lie in year 2023, so the year branch (the only
place a bare-year prefix is emitted) is skipped, and every inner flush
recursion bottoms out against a loop bound of `toTs.Hour() = 0`,
`toTs.Day() = 1` or `toTs.Month() = January`. -/
theorem c2_exact_year_boundary_returns_empty :
    listTargetDirectories (mkDate 2023 1 1) (mkDate 2024 1 1) = .ok [] := by
  decide

/-- C3 (code bug): for `from = 2023-05-31T23:00:00` and
`to = 2023-06-01T01:00:00` the code returns `[]`, not
`["2023/05/31/23", "2023/06/01/00"]`: the month-flush recursion on
`[2023-05-31 23:00, 2023-06-01 00:00)` agrees with `toTs - 1ns` on every
field down to the hour and emits nothing, and the final hour check
compares hour 0 of the advanced `fromTs` with hour 0 of `toTs - 1ns` and
also emits nothing. -/
theorem c3_month_crossing_returns_empty :
    listTargetDirectories (mkDateHour 2023 5 31 23) (mkDateHour 2023 6 1 1) = .ok [] := by
  decide

/-- C4 (code bug): the month-comparison invariant panic is reachable on a
valid input `from < to`.  For `from = 2023-06-01T00:00:00` and
`to = 2024-01-01T00:00:00`, the year branch is skipped (both `fromTs` and
`toTs - 1ns` lie in 2023), the month branch is entered (June ≠ December),
and `fromTs.Month() = 6 > toTs.Month() = 1` fires
`log.Panic("fromTs.Month() must not be larger than toTs")`. -/
theorem c4_month_invariant_panic_reachable :
    listTargetDirectories (mkDate 2023 6 1) (mkDate 2024 1 1)
      = .error "fromTs.Month() must not be larger than toTs"
    ∧ mkDate 2023 6 1 < mkDate 2024 1 1 := by
  constructor
  · decide
  · decide

/-- C5 counterexample: at a concrete successfully-decoded message the
callback's trace records the completion of processing strictly before the
acknowledgement — `defer m.Ack()` runs when the callback returns, so the
ack is never "before processing completes" whenever processing happens. -/
theorem c5_counterexample_ack_after_processing :
    ackPrecedesProcessing (receiveCallback (fun _ => .ok ())
      (.ok ⟨"e1", "t1", some ⟨"CREATED", "", "dev"⟩, none, [], none, none, "u1"⟩)) = false
    ∧ receiveCallback (fun _ => .ok ())
        (.ok ⟨"e1", "t1", some ⟨"CREATED", "", "dev"⟩, none, [], none, none, "u1"⟩)
      = [.ranProcess (.ok ()) [.relationHandled], .ackMsg] := by
  constructor
  · decide
  · decide

/-- C5 (corrected): every message is acknowledged unconditionally and
exactly once — also when unmarshalling or processing fails — but the
acknowledgement, registered by `defer m.Ack()`, executes when the
callback returns, i.e. as the last action of the trace, after processing
completes, not before it. -/
theorem c5_ack_unconditional_and_last :
    ∀ (dl : ClipPreviewEvent → Except String Unit) (decoded : Except String DeviceEvent),
      (receiveCallback dl decoded).getLast? = some CAction.ackMsg
      ∧ (receiveCallback dl decoded).count CAction.ackMsg = 1 := by
  intro dl decoded
  have key : ∀ l : List CAction, CAction.ackMsg ∉ l →
      (l ++ [CAction.ackMsg]).getLast? = some CAction.ackMsg
      ∧ (l ++ [CAction.ackMsg]).count CAction.ackMsg = 1 := by
    intro l hl
    constructor
    · simp
    · simp [List.count_append, List.count_eq_zero.mpr hl]
  cases decoded with
  | error e => exact key [CAction.loggedUnmarshalFailure] (by simp)
  | ok ev =>
    rcases hp : Process dl ev with ⟨r, acts⟩
    cases r with
    | error e =>
      have h2 := key [CAction.ranProcess (.error e) acts, CAction.loggedProcessFailure] (by simp)
      simp only [receiveCallback, hp]
      exact h2
    | ok u =>
      have h2 := key [CAction.ranProcess (.ok u) acts] (by simp)
      simp only [receiveCallback, hp]
      exact h2

/-- C6 (confirmed): parameter handling of `/list`.
(1) When both query parameters parse but the resulting range is not
strictly increasing (`from > to` or `from == to`), the response is
HTTP 400 with the handler's error text.
(2) When the `from` parameter is present but not an integer, the response
is HTTP 400 with the `strconv` error text.
(3) When both parameters are omitted, the validated range defaults to the
last 24 hours ending now: `from = now - 24h`, `to = from + 24h = now`. -/
theorem c6_list_param_handling :
    (∀ (fromQ toQ : String) (now : Int) (root : String) (fs : String → List WalkEvent)
       (f t : Int),
        parseUnixTimeOrDefault fromQ (now - 24 * nsPerHour) = .ok f →
        parseUnixTimeOrDefault toQ (f + 24 * nsPerHour) = .ok t →
        t ≤ f →
        handleList fromQ toQ now root fs = some (400, ["from should be less than to"]))
    ∧ (∀ (fromQ toQ : String) (now : Int) (root : String) (fs : String → List WalkEvent)
         (e : String),
        fromQ ≠ "" →
        goParseInt64 fromQ = .error e →
        handleList fromQ toQ now root fs = some (400, [e]))
    ∧ (∀ now : Int,
        listValidateRange "" "" now = .ok (now - 24 * nsPerHour, now)) := by
  refine ⟨?_, ?_, ?_⟩
  · intro fromQ toQ now root fs f t hf ht hle
    have hval : listValidateRange fromQ toQ now = .error "from should be less than to" := by
      simp only [listValidateRange, hf, ht]
      rw [if_neg (by omega)]
    simp [handleList, hval]
  · intro fromQ toQ now root fs e hne he
    have hlen : ¬ fromQ.length = 0 := by
      intro h0
      exact hne (by
        cases fromQ with
        | mk data => cases data with
          | nil => rfl
          | cons c cs => simp [String.length] at h0)
    have hf : parseUnixTimeOrDefault fromQ (now - 24 * nsPerHour) = .error e := by
      simp only [parseUnixTimeOrDefault, if_neg hlen, he]
    have hval : listValidateRange fromQ toQ now = .error e := by
      simp only [listValidateRange, hf]
    simp [handleList, hval]
  · intro now
    have hp : ∀ d : Int, parseUnixTimeOrDefault "" d = .ok d := by
      intro d; simp [parseUnixTimeOrDefault]
    have harith : now - 24 * nsPerHour + 24 * nsPerHour = now := by omega
    simp only [listValidateRange, hp, harith]
    rw [if_pos (by simp [nsPerHour, nsPerMin, nsPerSec])]

/-- C6 witness: the three parts at concrete requests — `from=5&to=3`
(reversed range) gives 400, `from=abc` (non-integer) gives 400, and with
both parameters omitted the validated range is
`[now - 24h, now)` at `now = 2023-03-10T12:00 local`. -/
theorem c6_witness :
    handleList "5" "3" 0 "out" (fun _ => []) = some (400, ["from should be less than to"])
    ∧ handleList "abc" "" 0 "out" (fun _ => [])
      = some (400, ["strconv.ParseInt: parsing \"abc\": invalid syntax"])
    ∧ listValidateRange "" "" (mkDateHour 2023 3 10 12)
      = .ok (mkDateHour 2023 3 10 12 - 24 * nsPerHour, mkDateHour 2023 3 10 12) := by
  refine ⟨?_, ?_, ?_⟩
  · exact c6_list_param_handling.1 "5" "3" 0 "out" (fun _ => [])
      (5 * nsPerSec) (3 * nsPerSec) (by decide) (by decide) (by decide)
  · exact c6_list_param_handling.2.1 "abc" "" 0 "out" (fun _ => [])
      "strconv.ParseInt: parsing \"abc\": invalid syntax" (by decide) (by decide)
  · exact c6_list_param_handling.2.2 (mkDateHour 2023 3 10 12)

/-- C7 counterexample: a `/list` request (default last-24-hours range at
`now = 2023-03-10T12:00 local`) against a filesystem whose every walk
invocation reports an error (`d == nil` callback calls, as for candidate
directories that fail to stat) is answered with HTTP 200 and an empty
file list — not with HTTP 500 as the claim states.  The walk callback
discards error invocations (`if d == nil { return nil }`), and the
handler's only 500 branch guards `json.Marshal`, which cannot fail on a
`[]string`. -/
theorem c7_counterexample_walk_error_gives_200 :
    handleList "" "" (mkDateHour 2023 3 10 12) "out" (fun _ => [WalkEvent.failure "stat failed"])
      = some (200, [])
    ∧ walkSawError ((fun _ => [WalkEvent.failure "stat failed"]) "out/2023/03/10/00") = true
    ∧ ∀ body, handleList "" "" (mkDateHour 2023 3 10 12) "out"
        (fun _ => [WalkEvent.failure "stat failed"]) ≠ some (500, body) := by
  refine ⟨by decide, by decide, ?_⟩
  intro body h
  rw [show handleList "" "" (mkDateHour 2023 3 10 12) "out"
      (fun _ => [WalkEvent.failure "stat failed"]) = some (200, []) from by decide] at h
  simp at h

/-- C7 (corrected): filesystem errors while walking the candidate
directories never produce an HTTP 500 — the walk callback ignores them
and walking continues.  Whenever the query validates and the decomposer
returns (rather than panicking), the endpoint responds 200 with whatever
regular files were collected, for every filesystem behaviour. -/
theorem c7_walk_errors_ignored :
    ∀ (fromQ toQ : String) (now : Int) (root : String) (fs : String → List WalkEvent)
      (f t : Int) (dirs : List String),
      listValidateRange fromQ toQ now = .ok (f, t) →
      listTargetDirectories f t = .ok dirs →
      handleList fromQ toQ now root fs
        = some (200, (dirs.map fun d => collectWalk root (fs (filepathJoin root d))).flatten) := by
  intro fromQ toQ now root fs f t dirs hval hdirs
  simp [handleList, hval, hdirs]

/-- C7 witness: the corrected statement applied to a concrete request
with an erroring filesystem. -/
theorem c7_witness :
    handleList "" "" (mkDateHour 2023 3 10 6) "out" (fun _ => [WalkEvent.failure "eio"])
      = some (200, []) := by
  have h := c7_walk_errors_ignored "" "" (mkDateHour 2023 3 10 6) "out"
    (fun _ => [WalkEvent.failure "eio"])
    (mkDateHour 2023 3 10 6 - 24 * nsPerHour) (mkDateHour 2023 3 10 6)
    ["2023/03/10/00", "2023/03/10/01", "2023/03/10/02", "2023/03/10/03", "2023/03/10/04",
     "2023/03/10/05"]
    (by decide) (by decide)
  exact h.trans (by decide)

/-- C8 (confirmed): a resource update whose `Events` map holds none of
the three recognized primary keys makes processing return the descriptive
error built from the user id and the joined `Events` and `Traits` key
lists — every such key occurs verbatim in the message — and the trace is
empty: no handler runs and no download (hence no file write) happens. -/
theorem c8_unsupported_resource_update :
    ∀ (dl : ClipPreviewEvent → Except String Unit) (event : DeviceEvent) (ru : ResourceUpdate),
      event.resourceUpdate = some ru →
      List.lookup doorbellChimeKey ru.events = none →
      List.lookup cameraMotionKey ru.events = none →
      List.lookup cameraPersonKey ru.events = none →
      Process dl event
        = (.error (unsupportedMsg event.userId (ru.events.map Prod.fst)
            (ru.traits.map Prod.fst)), [])
      ∧ ∀ k, (k ∈ ru.events.map Prod.fst ∨ k ∈ ru.traits.map Prod.fst) →
          strContains (unsupportedMsg event.userId (ru.events.map Prod.fst)
            (ru.traits.map Prod.fst)) k = true := by
  intro dl event ru hru h1 h2 h3
  refine ⟨?_, ?_⟩
  · simp [Process, hru, processResourceUpdateEvent, h1, h2, h3]
  · intro k hk
    exact strContains_unsupportedMsg _ _ _ k hk

/-- C8 witness: a concrete resource update carrying only an unrecognized
`CameraSound` event and an `Info` trait. -/
theorem c8_witness :
    Process (fun _ => .ok ())
      ⟨"e8", "ts8", none,
       some ⟨"dev", [("sdm.devices.traits.Info", ⟨.error "x", .error "x"⟩)],
         [("sdm.devices.events.CameraSound.Sound", ⟨.error "x", .error "x"⟩)]⟩,
       [], none, none, "u8"⟩
      = (.error (unsupportedMsg "u8" ["sdm.devices.events.CameraSound.Sound"]
          ["sdm.devices.traits.Info"]), [])
    ∧ strContains (unsupportedMsg "u8" ["sdm.devices.events.CameraSound.Sound"]
        ["sdm.devices.traits.Info"]) "sdm.devices.events.CameraSound.Sound" = true := by
  have h := c8_unsupported_resource_update (fun _ => .ok ())
    ⟨"e8", "ts8", none,
     some ⟨"dev", [("sdm.devices.traits.Info", ⟨.error "x", .error "x"⟩)],
       [("sdm.devices.events.CameraSound.Sound", ⟨.error "x", .error "x"⟩)]⟩,
     [], none, none, "u8"⟩
    ⟨"dev", [("sdm.devices.traits.Info", ⟨.error "x", .error "x"⟩)],
     [("sdm.devices.events.CameraSound.Sound", ⟨.error "x", .error "x"⟩)]⟩
    rfl (by decide) (by decide) (by decide)
  exact ⟨h.1, h.2 "sdm.devices.events.CameraSound.Sound" (Or.inl (by decide))⟩

/-- C9 (confirmed): the collision-probe loop of the clip downloader.
First conjunct — writing two clips with the same session id within the
same format-resolved second (so both probe the same candidate-name
sequence): the first write, finding its index-0 name unused, is stored
under the `_0` name; the second write, finding `_0` taken, is stored
under the `_1` name.  Second conjunct — generally, when the candidate
names of indices `0 … n-1` all exist and index `n` is free, the probe
returns the `_n` name. -/
theorem c9_collision_probe_suffixes :
    (∀ (fs : List String) (outDir fmt sess ext : String),
       fs.contains (mkClipFileName outDir fmt sess ext 0) = false →
       fs.contains (mkClipFileName outDir fmt sess ext 1) = false →
       mkClipFileName outDir fmt sess ext 1 ≠ mkClipFileName outDir fmt sess ext 0 →
       chooseClipFileName fs outDir fmt sess ext
         = some (mkClipFileName outDir fmt sess ext 0)
       ∧ chooseClipFileName (fs ++ [mkClipFileName outDir fmt sess ext 0]) outDir fmt sess ext
         = some (mkClipFileName outDir fmt sess ext 1))
    ∧ (∀ (fs : List String) (outDir fmt sess ext : String) (n : Nat),
       n ≤ fs.length →
       (∀ j, j < n → fs.contains (mkClipFileName outDir fmt sess ext j) = true) →
       fs.contains (mkClipFileName outDir fmt sess ext n) = false →
       chooseClipFileName fs outDir fmt sess ext
         = some (mkClipFileName outDir fmt sess ext n)) := by
  have general : ∀ (fs : List String) (outDir fmt sess ext : String) (n : Nat),
      n ≤ fs.length →
      (∀ j, j < n → fs.contains (mkClipFileName outDir fmt sess ext j) = true) →
      fs.contains (mkClipFileName outDir fmt sess ext n) = false →
      chooseClipFileName fs outDir fmt sess ext
        = some (mkClipFileName outDir fmt sess ext n) := by
    intro fs outDir fmt sess ext n hn hall hfree
    have h := probeLoop_finds (fun m => fs.contains m) (mkClipFileName outDir fmt sess ext)
      n 0 (fs.length + 1) (by omega)
      (fun j hj => by simpa using hall j hj)
      (by simpa using hfree)
    simpa [chooseClipFileName] using h
  refine ⟨?_, general⟩
  intro fs outDir fmt sess ext h0 h1 hne
  refine ⟨general fs outDir fmt sess ext 0 (Nat.zero_le _) (by omega) h0, ?_⟩
  refine general (fs ++ [mkClipFileName outDir fmt sess ext 0]) outDir fmt sess ext 1
    (by simp) ?_ ?_
  · intro j hj
    have hj0 : j = 0 := by omega
    subst hj0
    simp [List.contains, List.elem_eq_mem]
  · have h1' : mkClipFileName outDir fmt sess ext 1 ∉ fs := by
      simpa [List.contains, List.elem_eq_mem] using h1
    simp [List.contains, List.elem_eq_mem, hne, h1']

/-- C9 witness: two writes with session id `evt` against the default
output format resolved at 2023-05-10 14:xx — creation order yields the
`_0`- then the `_1`-suffixed filename. -/
theorem c9_witness :
    chooseClipFileName [] "out" "2023/05/10/14/{eventSessionId}" "evt" ".mp4"
      = some "out/2023/05/10/14/evt_0.mp4"
    ∧ chooseClipFileName ["out/2023/05/10/14/evt_0.mp4"] "out"
        "2023/05/10/14/{eventSessionId}" "evt" ".mp4"
      = some "out/2023/05/10/14/evt_1.mp4" := by
  have h := c9_collision_probe_suffixes.1 [] "out" "2023/05/10/14/{eventSessionId}" "evt" ".mp4"
    (by decide) (by decide) (by decide)
  refine ⟨h.1.trans (by decide), ?_⟩
  have hlist : (["out/2023/05/10/14/evt_0.mp4"] : List String)
      = [] ++ [mkClipFileName "out" "2023/05/10/14/{eventSessionId}" "evt" ".mp4" 0] := by
    decide
  rw [hlist]
  exact h.2.trans (by decide)

/-- C10 (confirmed): dispatch runs exactly one handler per event, with a
fixed priority.  (1) A present `ResourceUpdate` wins over a present
`RelationUpdate`: the event is processed by the resource-update path and
the relation handler never appears in the trace.  (2–4) Within a resource
update, a present-and-decodable `DoorbellChime` is handled in preference
to `CameraMotion` and `CameraPerson`; `CameraMotion` in preference to
`CameraPerson`; and `CameraPerson` when it alone is present — in each
case the trace carries exactly that one handler marker.  (5) An event
with neither update is an error. -/
theorem c10_dispatch_priority :
    (∀ (dl : ClipPreviewEvent → Except String Unit) (ev : DeviceEvent)
       (ru : ResourceUpdate) (rel : RelationUpdate),
       ev.resourceUpdate = some ru → ev.relationUpdate = some rel →
       Process dl ev = processResourceUpdateEvent dl ev ru
       ∧ PAction.relationHandled ∉ (Process dl ev).2)
    ∧ (∀ (dl : ClipPreviewEvent → Except String Unit) (ev : DeviceEvent)
         (ru : ResourceUpdate) (raw : RawMessage) (c : SessionEvent),
       ev.resourceUpdate = some ru →
       List.lookup doorbellChimeKey ru.events = some raw →
       raw.asSession = .ok c →
       Process dl ev = processChimeEvent dl c (clipPreviewOf ru.events)
       ∧ primaryMarkers (Process dl ev).2 = [PAction.chimeHandled c])
    ∧ (∀ (dl : ClipPreviewEvent → Except String Unit) (ev : DeviceEvent)
         (ru : ResourceUpdate) (raw : RawMessage) (m : SessionEvent),
       ev.resourceUpdate = some ru →
       List.lookup doorbellChimeKey ru.events = none →
       List.lookup cameraMotionKey ru.events = some raw →
       raw.asSession = .ok m →
       Process dl ev = processMotionEvent dl m (clipPreviewOf ru.events)
       ∧ primaryMarkers (Process dl ev).2 = [PAction.motionHandled m])
    ∧ (∀ (dl : ClipPreviewEvent → Except String Unit) (ev : DeviceEvent)
         (ru : ResourceUpdate) (raw : RawMessage) (p : SessionEvent),
       ev.resourceUpdate = some ru →
       List.lookup doorbellChimeKey ru.events = none →
       List.lookup cameraMotionKey ru.events = none →
       List.lookup cameraPersonKey ru.events = some raw →
       raw.asSession = .ok p →
       Process dl ev = processPersonEvent dl p (clipPreviewOf ru.events)
       ∧ primaryMarkers (Process dl ev).2 = [PAction.personHandled p])
    ∧ (∀ (dl : ClipPreviewEvent → Except String Unit) (ev : DeviceEvent),
       ev.resourceUpdate = none → ev.relationUpdate = none →
       Process dl ev = (.error ("Unsupported event: " ++ formatDeviceEvent ev), [])) := by
  refine ⟨?_, ?_, ?_, ?_, ?_⟩
  · intro dl ev ru rel hru _
    have hp : Process dl ev = processResourceUpdateEvent dl ev ru := by
      simp [Process, hru]
    exact ⟨hp, by rw [hp]; exact relationHandled_not_in_resource_trace dl ev ru⟩
  · intro dl ev ru raw c hru hlook hdec
    have hp : Process dl ev = processChimeEvent dl c (clipPreviewOf ru.events) := by
      simp [Process, hru, processResourceUpdateEvent, hlook, hdec]
    exact ⟨hp, by rw [hp]; exact primaryMarkers_chime dl c _⟩
  · intro dl ev ru raw m hru h1 hlook hdec
    have hp : Process dl ev = processMotionEvent dl m (clipPreviewOf ru.events) := by
      simp [Process, hru, processResourceUpdateEvent, h1, hlook, hdec]
    exact ⟨hp, by rw [hp]; exact primaryMarkers_motion dl m _⟩
  · intro dl ev ru raw p hru h1 h2 hlook hdec
    have hp : Process dl ev = processPersonEvent dl p (clipPreviewOf ru.events) := by
      simp [Process, hru, processResourceUpdateEvent, h1, h2, hlook, hdec]
    exact ⟨hp, by rw [hp]; exact primaryMarkers_person dl p _⟩
  · intro dl ev h1 h2
    simp [Process, h1, h2]

/-- C10 witness: the five parts at concrete events — an event carrying
both updates and all three primary keys is handled by the chime handler
alone; motion wins without chime; person wins alone; and an empty event
errs. -/
theorem c10_witness :
    Process (fun _ => .ok ())
      ⟨"eA", "tA", some ⟨"CREATED", "", "dev"⟩,
       some ⟨"dev", [],
         [(doorbellChimeKey, ⟨.ok ⟨"s1", "i1"⟩, .error "nc"⟩),
          (cameraMotionKey, ⟨.ok ⟨"s2", "i2"⟩, .error "nc"⟩),
          (cameraPersonKey, ⟨.ok ⟨"s3", "i3"⟩, .error "nc"⟩)]⟩,
       [], none, none, "uA"⟩
      = (.ok (), [.chimeHandled ⟨"s1", "i1"⟩])
    ∧ primaryMarkers (Process (fun _ => .ok ())
        ⟨"eB", "tB", none,
         some ⟨"dev", [],
           [(cameraMotionKey, ⟨.ok ⟨"s2", "i2"⟩, .error "nc"⟩),
            (cameraPersonKey, ⟨.ok ⟨"s3", "i3"⟩, .error "nc"⟩)]⟩,
         [], none, none, "uB"⟩).2
      = [PAction.motionHandled ⟨"s2", "i2"⟩]
    ∧ primaryMarkers (Process (fun _ => .ok ())
        ⟨"eC", "tC", none,
         some ⟨"dev", [], [(cameraPersonKey, ⟨.ok ⟨"s3", "i3"⟩, .error "nc"⟩)]⟩,
         [], none, none, "uC"⟩).2
      = [PAction.personHandled ⟨"s3", "i3"⟩]
    ∧ Process (fun _ => .ok ()) ⟨"eD", "tD", none, none, [], none, none, "uD"⟩
      = (.error ("Unsupported event: "
          ++ formatDeviceEvent ⟨"eD", "tD", none, none, [], none, none, "uD"⟩), []) := by
  refine ⟨?_, ?_, ?_, ?_⟩
  · have h := c10_dispatch_priority.2.1 (fun _ => .ok ())
      ⟨"eA", "tA", some ⟨"CREATED", "", "dev"⟩,
       some ⟨"dev", [],
         [(doorbellChimeKey, ⟨.ok ⟨"s1", "i1"⟩, .error "nc"⟩),
          (cameraMotionKey, ⟨.ok ⟨"s2", "i2"⟩, .error "nc"⟩),
          (cameraPersonKey, ⟨.ok ⟨"s3", "i3"⟩, .error "nc"⟩)]⟩,
       [], none, none, "uA"⟩
      ⟨"dev", [],
       [(doorbellChimeKey, ⟨.ok ⟨"s1", "i1"⟩, .error "nc"⟩),
        (cameraMotionKey, ⟨.ok ⟨"s2", "i2"⟩, .error "nc"⟩),
        (cameraPersonKey, ⟨.ok ⟨"s3", "i3"⟩, .error "nc"⟩)]⟩
      ⟨.ok ⟨"s1", "i1"⟩, .error "nc"⟩ ⟨"s1", "i1"⟩ rfl (by decide) rfl
    exact h.1.trans (by decide)
  · have h := c10_dispatch_priority.2.2.1 (fun _ => .ok ())
      ⟨"eB", "tB", none,
       some ⟨"dev", [],
         [(cameraMotionKey, ⟨.ok ⟨"s2", "i2"⟩, .error "nc"⟩),
          (cameraPersonKey, ⟨.ok ⟨"s3", "i3"⟩, .error "nc"⟩)]⟩,
       [], none, none, "uB"⟩
      ⟨"dev", [],
       [(cameraMotionKey, ⟨.ok ⟨"s2", "i2"⟩, .error "nc"⟩),
        (cameraPersonKey, ⟨.ok ⟨"s3", "i3"⟩, .error "nc"⟩)]⟩
      ⟨.ok ⟨"s2", "i2"⟩, .error "nc"⟩ ⟨"s2", "i2"⟩ rfl (by decide) (by decide) rfl
    exact h.2
  · have h := c10_dispatch_priority.2.2.2.1 (fun _ => .ok ())
      ⟨"eC", "tC", none,
       some ⟨"dev", [], [(cameraPersonKey, ⟨.ok ⟨"s3", "i3"⟩, .error "nc"⟩)]⟩,
       [], none, none, "uC"⟩
      ⟨"dev", [], [(cameraPersonKey, ⟨.ok ⟨"s3", "i3"⟩, .error "nc"⟩)]⟩
      ⟨.ok ⟨"s3", "i3"⟩, .error "nc"⟩ ⟨"s3", "i3"⟩ rfl (by decide) (by decide) (by decide) rfl
    exact h.2
  · exact c10_dispatch_priority.2.2.2.2 (fun _ => .ok ())
      ⟨"eD", "tD", none, none, [], none, none, "uD"⟩ rfl rfl

end NestDoorbell
